import Mathlib

/-!
Shallow embedding of the Safe-Remote-Signer core: the deny-list policy
engine (src/security/denyList.ts), the scan pipeline of SafeService
(src/services/safeService.ts), the scan loop of SafeRemoteSigner
(src/bot.ts) and the chain configuration (src/config/chains.ts).

TypeScript strings stay String, numbers stay Nat (or Int where signed
arithmetic matters), optional or possibly-undefined fields become
Option, and a caught exception becomes the error branch of Except.
-/

namespace SafeRemote

/-! ### JS string primitives

The JS string operations the source uses (toLowerCase, startsWith,
trim, split, parseInt) are modelled over the character list of a
String so that they evaluate by kernel reduction. -/

/-- JS String.prototype.toLowerCase, character by character. -/
def jsToLower (s : String) : String := String.mk (s.data.map Char.toLower)

/-- JS String.prototype.startsWith: the second string is a prefix of
the first. -/
def jsStartsWith (s pre : String) : Bool := pre.data.isPrefixOf s.data

def trimCharList (l : List Char) : List Char :=
  ((l.dropWhile Char.isWhitespace).reverse.dropWhile Char.isWhitespace).reverse

/-- JS String.prototype.trim. -/
def jsTrim (s : String) : String := String.mk (trimCharList s.data)

def splitCharList (sep : Char) (l : List Char) : List (List Char) :=
  l.foldr
    (fun c acc =>
      match acc with
      | [] => if c = sep then [[], []] else [[c]]
      | h :: t => if c = sep then [] :: h :: t else (c :: h) :: t)
    [[]]

/-- JS String.prototype.split with a one-character separator; the
split of the empty string is the one-element list of the empty
string, as in JS. -/
def jsSplit (sep : Char) (s : String) : List String :=
  (splitCharList sep s.data).map String.mk

def digitsToNat (l : List Char) : Nat :=
  l.foldl (fun acc c => acc * 10 + (c.toNat - 48)) 0

/-- JS parseInt restricted to the decimal digit strings the chain
configuration feeds it: take the leading run of digits of the trimmed
input, NaN (none) if there is none. Sign and radix forms are not
exercised by the source. -/
def jsParseInt (s : String) : Option Nat :=
  let d := (jsTrim s).data.takeWhile Char.isDigit
  if d = [] then none else some (digitsToNat d)

/-! ### denyList.ts -/

/-- MetaTransactionData as consumed by the deny rules: target address,
value, optional call data, operation kind (0 = call, 1 = delegate call).
An absent target is the empty string, matching JS falsiness of "". -/
structure MetaTransactionData where
  toAddr : String
  value : String
  data : Option String
  operation : Nat
deriving DecidableEq

structure DenyListRule where
  id : String
  description : String
  check : MetaTransactionData → Bool

/-- The selector test each selector-based rule performs:
tx.data?.toLowerCase().startsWith(selector.toLowerCase()). -/
def selectorCheck (selectors : List String) (tx : MetaTransactionData) : Bool :=
  selectors.any (fun sel =>
    match tx.data with
    | none => false
    | some d => jsStartsWith (jsToLower d) (jsToLower sel))

def ownershipSelectors : List String :=
  ["0x0d582f13", "0xf8dc5dd9", "0xe318b52b", "0x694e80c3"]

def thresholdSelectors : List String := ["0x694e80c3"]

def moduleSelectors : List String := ["0x610b5925", "0xe009cfde"]

def SAFE_OWNERSHIP_TRANSFER : DenyListRule :=
  { id := "SAFE_OWNERSHIP_TRANSFER"
    description := "Prevent Safe ownership transfer operations"
    check := selectorCheck ownershipSelectors }

def SAFE_THRESHOLD_CHANGE : DenyListRule :=
  { id := "SAFE_THRESHOLD_CHANGE"
    description := "Prevent Safe threshold change operations"
    check := selectorCheck thresholdSelectors }

def SAFE_MODULE_MANAGEMENT : DenyListRule :=
  { id := "SAFE_MODULE_MANAGEMENT"
    description := "Prevent Safe module management operations"
    check := selectorCheck moduleSelectors }

/-- TRUSTED_DELEGATE_CONTRACTS parsing: a missing or empty variable is
falsy and yields the empty list, otherwise split on commas, trim and
lowercase each entry. -/
def parseTrustedContracts : Option String → List String
  | none => []
  | some s =>
    if s = "" then []
    else (jsSplit ',' s).map (fun a => jsToLower (jsTrim a))

def delegateCallCheck (env : Option String) (tx : MetaTransactionData) : Bool :=
  if tx.operation != 1 then false
  else
    let trusted := parseTrustedContracts env
    if trusted.length == 0 then true
    else if tx.toAddr != "" && !(trusted.contains (jsToLower tx.toAddr)) then true
    else false

def DELEGATE_CALL_RESTRICTION (env : Option String) : DenyListRule :=
  { id := "DELEGATE_CALL_RESTRICTION"
    description := "Prevent delegate calls to untrusted contracts"
    check := delegateCallCheck env }

def DENY_LIST_RULES (env : Option String) : List DenyListRule :=
  [SAFE_OWNERSHIP_TRANSFER, SAFE_THRESHOLD_CHANGE, SAFE_MODULE_MANAGEMENT,
   DELEGATE_CALL_RESTRICTION env]

structure PolicyDecision where
  denied : Bool
  reasons : List String
deriving DecidableEq

def formatReason (r : DenyListRule) : String := r.id ++ ": " ++ r.description

/-- DenyListChecker.isDenied: filter the rules by their check, report
one formatted reason per triggered rule. -/
def isDenied (rules : List DenyListRule) (tx : MetaTransactionData) : PolicyDecision :=
  let deniedRules := rules.filter (fun r => r.check tx)
  { denied := decide (0 < deniedRules.length)
    reasons := deniedRules.map formatReason }

/-! ### safeService.ts -/

/-- One entry of the confirmations list returned by the transaction
service: the address of an owner who already signed. -/
structure Confirmation where
  owner : String
deriving DecidableEq

/-- SafeService.hasAlreadySigned: the lowercased signer address occurs
among the lowercased confirmation owners; an absent confirmations list
counts as not signed. -/
def hasAlreadySigned (signerAddress : String)
    (confirmations : Option (List Confirmation)) : Bool :=
  let s := jsToLower signerAddress
  match confirmations with
  | none => false
  | some cs => cs.any (fun c => jsToLower c.owner == s)

/-- SafeService.hasAlreadySignedMessage: same test over the message
confirmations. -/
def hasAlreadySignedMessage (signerAddress : String)
    (confirmations : Option (List Confirmation)) : Bool :=
  let s := jsToLower signerAddress
  match confirmations with
  | none => false
  | some cs => cs.any (fun c => jsToLower c.owner == s)

/-- The fields of a fetched SafeMultisigTransactionResponse that the
scan pipeline reads. -/
structure FetchedTx where
  safeTxHash : String
  toAddr : String
  value : String
  data : Option String
  operation : Nat
  confirmations : Option (List Confirmation)
  confirmationsRequired : Nat
deriving DecidableEq

/-- The fields of a fetched SafeMessage that the scan pipeline reads. -/
structure FetchedMessage where
  messageHash : String
  confirmations : Option (List Confirmation)
deriving DecidableEq

/-- JS transaction.data or "0x": undefined and the empty string are
falsy and are replaced by "0x". -/
def jsOrHexData : Option String → String
  | none => "0x"
  | some d => if d = "" then "0x" else d

/-- The MetaTransactionData processTransaction hands to the deny-list
checker. -/
def txToMeta (tx : FetchedTx) : MetaTransactionData :=
  { toAddr := tx.toAddr
    value := tx.value
    data := some (jsOrHexData tx.data)
    operation := tx.operation }

/-- Observable outcome of processing one pending item: the returned
boolean, and whether the signing and submission calls were reached.
External effects (signHash, confirmTransaction) are oracles whose
success is a Bool parameter; a raised error is caught and yields
processed = false. -/
structure ProcessResult where
  processed : Bool
  signInvoked : Bool
  submitInvoked : Bool
deriving DecidableEq

/-- SafeService.processTransaction: skip when already signed, skip when
denied, otherwise sign and submit; an error in either external call is
caught and reported as not processed. -/
def processTransaction (signerAddress : String) (env : Option String)
    (tx : FetchedTx) (signOk submitOk : Bool) : ProcessResult :=
  if hasAlreadySigned signerAddress tx.confirmations then
    { processed := false, signInvoked := false, submitInvoked := false }
  else if (isDenied (DENY_LIST_RULES env) (txToMeta tx)).denied then
    { processed := false, signInvoked := false, submitInvoked := false }
  else if !signOk then
    { processed := false, signInvoked := true, submitInvoked := false }
  else if !submitOk then
    { processed := false, signInvoked := true, submitInvoked := true }
  else
    { processed := true, signInvoked := true, submitInvoked := true }

/-- SafeService.processMessage: skip when already signed, otherwise
sign and submit; no deny-list check on the message path. -/
def processMessage (signerAddress : String)
    (msg : FetchedMessage) (signOk submitOk : Bool) : ProcessResult :=
  if hasAlreadySignedMessage signerAddress msg.confirmations then
    { processed := false, signInvoked := false, submitInvoked := false }
  else if !signOk then
    { processed := false, signInvoked := true, submitInvoked := false }
  else if !submitOk then
    { processed := false, signInvoked := true, submitInvoked := true }
  else
    { processed := true, signInvoked := true, submitInvoked := true }

structure PendingTransaction where
  chainId : Nat
  safeTxHash : String
  tx : FetchedTx
  confirmationsRequired : Nat
  confirmations : Nat
deriving DecidableEq

/-- The PendingTransaction record built for each fetched transaction:
confirmationsRequired falls back to 1 when falsy, confirmations is the
length of the fetched confirmations list (0 when absent). -/
def mkPendingTransaction (chainId : Nat) (t : FetchedTx) : PendingTransaction :=
  { chainId
    safeTxHash := t.safeTxHash
    tx := t
    confirmationsRequired :=
      if t.confirmationsRequired = 0 then 1 else t.confirmationsRequired
    confirmations := (t.confirmations.getD []).length }

structure PendingMessage where
  chainId : Nat
  messageHash : String
  msg : FetchedMessage
  confirmationsRequired : Nat
  confirmations : Nat
deriving DecidableEq

def mkPendingMessage (chainId : Nat) (m : FetchedMessage) : PendingMessage :=
  { chainId
    messageHash := m.messageHash
    msg := m
    confirmationsRequired := 2
    confirmations := (m.confirmations.getD []).length }

/-- Message filter in getPendingMessages: confirmationsNeeded =
2 - confirmations.length must be positive, with 2 the hard-coded
assumed required count. -/
def messageNeedsConfirmations (m : FetchedMessage) : Bool :=
  decide ((2 : Int) - ((m.confirmations.getD []).length : Int) > 0)

/-- SafeService.getPendingTransactions: iterate the enabled chains in
order; a fetch that raises is caught and the chain contributes no
items; fetched items are appended in service order. -/
def getPendingTransactions (chains : List Nat)
    (fetch : Nat → Except String (List FetchedTx)) : List PendingTransaction :=
  match chains with
  | [] => []
  | c :: rest =>
    match fetch c with
    | Except.error _ => getPendingTransactions rest fetch
    | Except.ok txs =>
      txs.map (mkPendingTransaction c) ++ getPendingTransactions rest fetch

/-- SafeService.getPendingMessages: same per-chain loop, keeping only
messages that still need confirmations under the assumed count of 2. -/
def getPendingMessages (chains : List Nat)
    (fetch : Nat → Except String (List FetchedMessage)) : List PendingMessage :=
  match chains with
  | [] => []
  | c :: rest =>
    match fetch c with
    | Except.error _ => getPendingMessages rest fetch
    | Except.ok msgs =>
      (msgs.filter messageNeedsConfirmations).map (mkPendingMessage c)
        ++ getPendingMessages rest fetch

/-! ### bot.ts scanAndProcess -/

/-- One processed item of a scan cycle, in processing order. -/
inductive ScanEvent where
  | txEvent (chainId : Nat) (hash : String)
  | msgEvent (chainId : Nat) (hash : String)
deriving DecidableEq

/-- SafeRemoteSigner.scanAndProcess processing order: every pending
transaction of every chain first, in the order getPendingTransactions
returns them, then every pending message of every chain. -/
def scanOrder (chains : List Nat)
    (fetchTx : Nat → Except String (List FetchedTx))
    (fetchMsg : Nat → Except String (List FetchedMessage)) : List ScanEvent :=
  (getPendingTransactions chains fetchTx).map
      (fun p => ScanEvent.txEvent p.chainId p.safeTxHash)
    ++ (getPendingMessages chains fetchMsg).map
      (fun p => ScanEvent.msgEvent p.chainId p.messageHash)

/-! ### config/chains.ts -/

/-- The chain ids present in CHAIN_CONFIGS: mainnet, polygon, arbitrum,
optimism, gnosis, base, sonic. -/
def SUPPORTED_CHAIN_IDS : List Nat := [1, 137, 42161, 10, 100, 8453, 146]

/-- getEnabledChains: a missing or empty ENABLED_CHAINS defaults to
mainnet and polygon; otherwise split on commas, parse each entry, and
keep only the ids present in CHAIN_CONFIGS (a NaN entry is dropped by
the same truthiness filter). -/
def getEnabledChains (env : Option String) : List Nat :=
  match env with
  | none => [1, 137]
  | some s =>
    if s = "" then [1, 137]
    else
      ((jsSplit ',' s).map (fun part => jsParseInt (jsTrim part))).filterMap
        (fun o =>
          match o with
          | some n => if SUPPORTED_CHAIN_IDS.contains n then some n else none
          | none => none)

def unsupportedChainsError (ids : List Nat) : String :=
  "Unsupported chain IDs: " ++ String.intercalate ", " (ids.map toString)

/-- validateEnabledChains: throw on an enabled chain missing from
CHAIN_CONFIGS, then throw when no chain is enabled. -/
def validateEnabledChains (env : Option String) : Except String Unit :=
  let enabled := getEnabledChains env
  let unsupported := enabled.filter (fun c => !(SUPPORTED_CHAIN_IDS.contains c))
  if 0 < unsupported.length then Except.error (unsupportedChainsError unsupported)
  else if enabled.length = 0 then Except.error "No enabled chains configured"
  else Except.ok ()

/-! ### config/index.ts and the startup sequence -/

/-- The ENABLED_CHAINS handling of the Joi config schema
(config/index.ts): the variable is required and, being a Joi string,
must be non-empty; on success the raw value is split on commas and
each entry trimmed — with no filtering of unknown ids. This list is
what config.enabledChains holds and what SafeService is built over. -/
def validateConfigEnabled (env : Option String) : Except String (List String) :=
  match env with
  | none => Except.error "Configuration validation error: ENABLED_CHAINS is required"
  | some s =>
    if s = "" then
      Except.error "Configuration validation error: ENABLED_CHAINS is not allowed to be empty"
    else Except.ok ((jsSplit ',' s).map jsTrim)

/-- JS Number conversion as applied to a trimmed config entry: the
empty string is 0, a pure digit string is its value, anything else is
NaN (none). -/
def jsNumber (s : String) : Option Nat :=
  if s = "" then some 0
  else if s.data.all Char.isDigit then some (digitsToNat s.data) else none

/-- getChainConfig: yield the chain configuration, or throw
Unsupported chain ID when the id (or NaN) indexes nothing in
CHAIN_CONFIGS. -/
def getChainConfigResult (c : Option Nat) : Except String Unit :=
  match c with
  | some n =>
    if SUPPORTED_CHAIN_IDS.contains n then Except.ok ()
    else Except.error ("Unsupported chain ID: " ++ toString n)
  | none => Except.error "Unsupported chain ID: NaN"

/-- SafeService.initialize: look up getChainConfig and build the
clients chain by chain; an error is logged and re-thrown, so the first
failing chain aborts initialization. -/
def initializeChains : List (Option Nat) → Except String Unit
  | [] => Except.ok ()
  | c :: rest =>
    match getChainConfigResult c with
    | Except.error e => Except.error e
    | Except.ok _ => initializeChains rest

/-- The startup sequence up to the first scan: module-load config
validation (Joi), the SafeRemoteSigner constructor (which runs
validateEnabledChains over the raw environment), then start →
initialize over the SafeService chain list, which is the unfiltered
config list converted by Number. scanAndProcess runs only after all
three succeed; the ok value is the chain list scanning would use. -/
def startupResult (env : Option String) : Except String (List (Option Nat)) :=
  match validateConfigEnabled env with
  | Except.error e => Except.error e
  | Except.ok entries =>
    match validateEnabledChains env with
    | Except.error e => Except.error e
    | Except.ok _ =>
      match initializeChains (entries.map jsNumber) with
      | Except.error e => Except.error e
      | Except.ok _ => Except.ok (entries.map jsNumber)

/-! ### Spec-side formalisations used for refinement comparisons -/

/-- The selector trigger as the spec words it: the call data matches
some listed function selector, as a case-insensitive prefix; absent
call data matches no selector. -/
def specSelectorFires (sels : List String) (data : Option String) : Bool :=
  match data with
  | none => false
  | some d => sels.any (fun sel => jsStartsWith (jsToLower d) (jsToLower sel))

/-- The three ownership-mutation selectors the ownership-transfer rule
is specified to react to: add-owner, remove-owner, swap-owner. -/
def specOwnership3Selectors : List String :=
  ["0x0d582f13", "0xf8dc5dd9", "0xe318b52b"]

/-- The delegate-call trigger as the claim words it: delegate call and
(empty allowlist, or target absent from the allowlist compared
case-insensitively). -/
def specDelegateFires (env : Option String) (tx : MetaTransactionData) : Prop :=
  tx.operation = 1 ∧
    (parseTrustedContracts env = [] ∨
      jsToLower tx.toAddr ∉ parseTrustedContracts env)

/-! ### Shared lemmas about the policy engine -/

theorem selectorCheck_eq_spec (sels : List String) (tx : MetaTransactionData) :
    selectorCheck sels tx = specSelectorFires sels tx.data := by
  cases h : tx.data <;> simp [selectorCheck, specSelectorFires, h]

theorem denied_of_check {rules : List DenyListRule} {tx : MetaTransactionData}
    {r : DenyListRule} (hr : r ∈ rules) (hc : r.check tx = true) :
    (isDenied rules tx).denied = true := by
  simp only [isDenied, decide_eq_true_eq]
  exact List.length_pos.mpr
    (List.ne_nil_of_mem (List.mem_filter.mpr ⟨hr, hc⟩))

theorem mem_reasons_of_check {rules : List DenyListRule} {tx : MetaTransactionData}
    {r : DenyListRule} (hr : r ∈ rules) (hc : r.check tx = true) :
    formatReason r ∈ (isDenied rules tx).reasons := by
  simp only [isDenied]
  exact List.mem_map_of_mem _ (List.mem_filter.mpr ⟨hr, hc⟩)

theorem mem_reasons_iff {rules : List DenyListRule} {tx : MetaTransactionData}
    {s : String} :
    s ∈ (isDenied rules tx).reasons ↔
      ∃ r, r ∈ rules ∧ r.check tx = true ∧ formatReason r = s := by
  simp [isDenied, List.mem_map, List.mem_filter, and_assoc]

/-! ### C1 -/

/-- Concrete action whose call data is exactly the
change-required-approvals (changeThreshold) selector. -/
def c1ThresholdTx : MetaTransactionData :=
  { toAddr := "0x0000000000000000000000000000000000000002"
    value := "0"
    data := some "0x694e80c3"
    operation := 0 }

/-- C1 counterexample: the ownership-transfer rule also fires on the
change-required-approvals selector 0x694e80c3, which the claim says it
must not fire on; the data matches none of the add/remove/swap-owner
selectors. -/
theorem c1_counterexample :
    SAFE_OWNERSHIP_TRANSFER.check c1ThresholdTx = true ∧
    specSelectorFires specOwnership3Selectors c1ThresholdTx.data = false := by
  decide

/-- C1 (amended): the ownership-transfer rule fires iff the call data
starts, case-insensitively, with one of the four selectors add-owner,
remove-owner, swap-owner or change-required-approvals; for every such
action, evaluate denies and the reasons cite the rule. -/
theorem c1_ownership_rule (tx : MetaTransactionData) (env : Option String) :
    SAFE_OWNERSHIP_TRANSFER.check tx = specSelectorFires ownershipSelectors tx.data ∧
    (SAFE_OWNERSHIP_TRANSFER.check tx = true →
      (isDenied (DENY_LIST_RULES env) tx).denied = true ∧
      formatReason SAFE_OWNERSHIP_TRANSFER ∈ (isDenied (DENY_LIST_RULES env) tx).reasons) := by
  refine ⟨selectorCheck_eq_spec ownershipSelectors tx, fun h => ⟨?_, ?_⟩⟩
  · exact denied_of_check (by simp [DENY_LIST_RULES]) h
  · exact mem_reasons_of_check (by simp [DENY_LIST_RULES]) h

/-- Concrete add-owner action. -/
def c1AddOwnerTx : MetaTransactionData :=
  { toAddr := "0x0000000000000000000000000000000000000003"
    value := "0"
    data := some "0x0d582f13"
    operation := 0 }

theorem c1_witness :
    (isDenied (DENY_LIST_RULES none) c1AddOwnerTx).denied = true ∧
    formatReason SAFE_OWNERSHIP_TRANSFER ∈
      (isDenied (DENY_LIST_RULES none) c1AddOwnerTx).reasons :=
  (c1_ownership_rule c1AddOwnerTx none).2 (by decide)

/-! ### C2 -/

/-- Delegate call with an empty target address. -/
def c2EmptyTargetTx : MetaTransactionData :=
  { toAddr := "", value := "0", data := none, operation := 1 }

/-- C2 counterexample: with a non-empty allowlist and an empty target,
the rule does not fire though the claimed trigger condition holds (the
target is absent from the allowlist). -/
theorem c2_counterexample :
    delegateCallCheck (some "0xaaaa") c2EmptyTargetTx = false ∧
    specDelegateFires (some "0xaaaa") c2EmptyTargetTx := by
  refine ⟨by decide, by decide, Or.inr (by decide)⟩

/-- C2 (amended): the delegate-call-restriction rule fires iff the
operation is delegate_call and (the allowlist is empty, or the target
is non-empty and absent from the allowlist case-insensitively); it
never fires for operation=call, and an empty allowlist denies every
delegate call. -/
theorem c2_delegate_rule (env : Option String) (tx : MetaTransactionData) :
    (delegateCallCheck env tx = true ↔
      (tx.operation = 1 ∧
        (parseTrustedContracts env = [] ∨
          (tx.toAddr ≠ "" ∧ jsToLower tx.toAddr ∉ parseTrustedContracts env)))) ∧
    (tx.operation ≠ 1 → delegateCallCheck env tx = false) ∧
    (tx.operation = 1 → parseTrustedContracts env = [] →
      delegateCallCheck env tx = true) := by
  unfold delegateCallCheck
  refine ⟨?_, ?_, ?_⟩
  · by_cases hop : tx.operation = 1
    · by_cases hlist : parseTrustedContracts env = []
      · simp [hop, hlist]
      · have : parseTrustedContracts env ≠ [] := hlist
        simp [hop, hlist, List.length_eq_zero, this]
    · simp [hop, bne_iff_ne, Ne, hop]
  · intro h
    simp [bne_iff_ne, h]
  · intro hop hlist
    simp [hop, hlist]

/-- Delegate call with a target and no configured allowlist. -/
def c2DelegateTx : MetaTransactionData :=
  { toAddr := "0xABC", value := "0", data := none, operation := 1 }

theorem c2_witness :
    delegateCallCheck none c2DelegateTx = true :=
  (c2_delegate_rule none c2DelegateTx).2.2 rfl rfl

/-! ### C3 -/

/-- C3: an item whose fetched approver list already contains the
operator address, compared case-insensitively, is skipped: not
processed, no signing call, no submission call — for transactions and
for messages alike. The determination reads only the fetched
confirmations and the operator address; no other state enters. -/
theorem c3_no_double_approval (signer : String) (env : Option String)
    (tx : FetchedTx) (cs : List Confirmation) (c : Confirmation)
    (htx : tx.confirmations = some cs) (hcmem : c ∈ cs)
    (howner : jsToLower c.owner = jsToLower signer)
    (msg : FetchedMessage) (ms : List Confirmation) (cm : Confirmation)
    (hmsg : msg.confirmations = some ms) (hmmem : cm ∈ ms)
    (hmowner : jsToLower cm.owner = jsToLower signer)
    (txSignOk txSubmitOk msgSignOk msgSubmitOk : Bool) :
    processTransaction signer env tx txSignOk txSubmitOk =
      { processed := false, signInvoked := false, submitInvoked := false } ∧
    processMessage signer msg msgSignOk msgSubmitOk =
      { processed := false, signInvoked := false, submitInvoked := false } := by
  have h1 : hasAlreadySigned signer tx.confirmations = true := by
    simp only [hasAlreadySigned, htx, List.any_eq_true]
    exact ⟨c, hcmem, by simp [howner]⟩
  have h2 : hasAlreadySignedMessage signer msg.confirmations = true := by
    simp only [hasAlreadySignedMessage, hmsg, List.any_eq_true]
    exact ⟨cm, hmmem, by simp [hmowner]⟩
  exact ⟨by simp [processTransaction, h1], by simp [processMessage, h2]⟩

def c3Tx : FetchedTx :=
  { safeTxHash := "0xhash1", toAddr := "0x1", value := "0", data := none
    operation := 0, confirmations := some [⟨"0xAbCd"⟩], confirmationsRequired := 2 }

def c3Msg : FetchedMessage :=
  { messageHash := "0xmsg1", confirmations := some [⟨"0xabcd"⟩] }

theorem c3_witness :
    processTransaction "0xABCD" none c3Tx true true =
      { processed := false, signInvoked := false, submitInvoked := false } ∧
    processMessage "0xABCD" c3Msg true true =
      { processed := false, signInvoked := false, submitInvoked := false } :=
  c3_no_double_approval "0xABCD" none c3Tx [⟨"0xAbCd"⟩] ⟨"0xAbCd"⟩ rfl
    (by decide) (by decide) c3Msg [⟨"0xabcd"⟩] ⟨"0xabcd"⟩ rfl
    (by decide) (by decide) true true true true

/-! ### C4 -/

/-- C4: evaluation filters the rule list without short-circuit: the
reasons are exactly one formatted entry per triggered rule in
rule-list order, denied holds iff some reason was collected, and every
triggered rule contributes its reason. -/
theorem c4_evaluate_all_rules (rules : List DenyListRule) (tx : MetaTransactionData) :
    (isDenied rules tx).reasons =
      (rules.filter (fun r => r.check tx)).map formatReason ∧
    ((isDenied rules tx).denied = true ↔ (isDenied rules tx).reasons ≠ []) ∧
    (∀ r ∈ rules, r.check tx = true → formatReason r ∈ (isDenied rules tx).reasons) := by
  refine ⟨rfl, ?_, fun r hr hc => mem_reasons_of_check hr hc⟩
  simp [isDenied, List.length_pos, List.map_eq_nil_iff]

def c4Tx : MetaTransactionData :=
  { toAddr := "0x0000000000000000000000000000000000000004"
    value := "0"
    data := some "0x610b5925"
    operation := 0 }

theorem c4_witness :
    formatReason SAFE_MODULE_MANAGEMENT ∈
      (isDenied (DENY_LIST_RULES none) c4Tx).reasons :=
  (c4_evaluate_all_rules (DENY_LIST_RULES none) c4Tx).2.2 SAFE_MODULE_MANAGEMENT
    (by simp [DENY_LIST_RULES]) (by decide)

/-! ### C5 -/

/-- The transaction events one chain contributes to a scan cycle, in
service order; a failed fetch contributes none. -/
def txEventsOf (fetchTx : Nat → Except String (List FetchedTx)) (c : Nat) :
    List ScanEvent :=
  match fetchTx c with
  | Except.error _ => []
  | Except.ok txs => txs.map (fun t => ScanEvent.txEvent c t.safeTxHash)

/-- The message events one chain contributes: the fetched messages
that still need confirmations, in service order. -/
def msgEventsOf (fetchMsg : Nat → Except String (List FetchedMessage)) (c : Nat) :
    List ScanEvent :=
  match fetchMsg c with
  | Except.error _ => []
  | Except.ok msgs =>
    (msgs.filter messageNeedsConfirmations).map
      (fun m => ScanEvent.msgEvent c m.messageHash)

/-- The processing order the claim asserts: per network, the
transactions of that network, then the messages of that network,
before any item of the next network. -/
def specPerNetworkOrder (chains : List Nat)
    (fetchTx : Nat → Except String (List FetchedTx))
    (fetchMsg : Nat → Except String (List FetchedMessage)) : List ScanEvent :=
  chains.flatMap (fun c => txEventsOf fetchTx c ++ msgEventsOf fetchMsg c)

theorem getPendingTransactions_events (chains : List Nat)
    (fetchTx : Nat → Except String (List FetchedTx)) :
    (getPendingTransactions chains fetchTx).map
        (fun p => ScanEvent.txEvent p.chainId p.safeTxHash) =
      chains.flatMap (txEventsOf fetchTx) := by
  induction chains with
  | nil => rfl
  | cons c rest ih =>
    cases h : fetchTx c <;>
      simp [getPendingTransactions, h, txEventsOf, ih, mkPendingTransaction,
        Function.comp]

theorem getPendingMessages_events (chains : List Nat)
    (fetchMsg : Nat → Except String (List FetchedMessage)) :
    (getPendingMessages chains fetchMsg).map
        (fun p => ScanEvent.msgEvent p.chainId p.messageHash) =
      chains.flatMap (msgEventsOf fetchMsg) := by
  induction chains with
  | nil => rfl
  | cons c rest ih =>
    cases h : fetchMsg c <;>
      simp [getPendingMessages, h, msgEventsOf, ih, mkPendingMessage,
        Function.comp]

def c5FetchTx : Nat → Except String (List FetchedTx) := fun c =>
  Except.ok [{ safeTxHash := if c = 1 then "0xt1" else "0xt2"
               toAddr := "0x1", value := "0", data := none, operation := 0
               confirmations := none, confirmationsRequired := 1 }]

def c5FetchMsg : Nat → Except String (List FetchedMessage) := fun c =>
  Except.ok [{ messageHash := if c = 1 then "0xm1" else "0xm2"
               confirmations := none }]

/-- C5 counterexample: with two networks each holding one pending
transaction and one pending message, the cycle handles the second
transaction of the second network before the message of the first
network, so the messages of a network are not processed before the
items of the next network. -/
theorem c5_counterexample :
    scanOrder [1, 2] c5FetchTx c5FetchMsg ≠
      specPerNetworkOrder [1, 2] c5FetchTx c5FetchMsg := by
  decide

/-- C5 (amended): within one scan cycle, the transactions of each
network are processed in service order, network by network, and all
messages of all networks are processed only after all transactions of
all networks, again network by network in service order. -/
theorem c5_scan_order (chains : List Nat)
    (fetchTx : Nat → Except String (List FetchedTx))
    (fetchMsg : Nat → Except String (List FetchedMessage)) :
    scanOrder chains fetchTx fetchMsg =
      chains.flatMap (txEventsOf fetchTx) ++ chains.flatMap (msgEventsOf fetchMsg) := by
  unfold scanOrder
  rw [getPendingTransactions_events, getPendingMessages_events]

/-! ### C6 -/

theorem initializeChains_ok_iff (l : List (Option Nat)) :
    initializeChains l = Except.ok () ↔
      ∀ c ∈ l, getChainConfigResult c = Except.ok () := by
  induction l with
  | nil => simp [initializeChains]
  | cons c rest ih =>
    cases h : getChainConfigResult c with
    | error e =>
      simp only [initializeChains, h, List.forall_mem_cons]
      constructor
      · intro hcontra
        exact Except.noConfusion hcontra
      · intro hall
        exact Except.noConfusion hall.1
    | ok u =>
      cases u
      simp only [initializeChains, h, List.forall_mem_cons, ih, true_and]

/-- C6: startup is fatal before any scan whenever the configured chain
list has an entry that getChainConfig rejects (any unsupported id, and
NaN): the Joi config keeps the unfiltered list, the Safe service is
built over it, and initialize re-throws the getChainConfig error during
start, ahead of the first scan. A missing or empty ENABLED_CHAINS is
already rejected by the required non-empty Joi string at config load. -/
theorem c6_startup_fatal (s : String) (entry : String)
    (hmem : entry ∈ (jsSplit ',' s).map jsTrim)
    (hbad : (getChainConfigResult (jsNumber entry)).isOk = false) :
    (startupResult (some s)).isOk = false ∧
    (startupResult none).isOk = false ∧
    (startupResult (some "")).isOk = false := by
  refine ⟨?_, rfl, rfl⟩
  by_cases hs : s = ""
  · subst hs
    rfl
  · have hne : initializeChains (((jsSplit ',' s).map jsTrim).map jsNumber) ≠
        Except.ok () := by
      intro hok
      have hentry := (initializeChains_ok_iff _).mp hok (jsNumber entry)
        (List.mem_map_of_mem jsNumber hmem)
      rw [hentry] at hbad
      exact Bool.noConfusion hbad
    simp only [startupResult, validateConfigEnabled, if_neg hs]
    cases hv : validateEnabledChains (some s) with
    | error e => rfl
    | ok u =>
      cases u
      cases hi : initializeChains (((jsSplit ',' s).map jsTrim).map jsNumber) with
      | error e => rfl
      | ok u => cases u; exact absurd hi hne

theorem c6_witness :
    (startupResult (some "1,999")).isOk = false ∧
    (startupResult none).isOk = false ∧
    (startupResult (some "")).isOk = false :=
  c6_startup_fatal "1,999" "999" (by decide) (by decide)

/-! ### C7 -/

/-- Point update of a fetch function. -/
def updateFetch {α : Type} (f : Nat → α) (c : Nat) (v : α) : Nat → α :=
  fun x => if x = c then v else f x

theorem getPendingTransactions_error_eq_empty (chains : List Nat)
    (fetchTx : Nat → Except String (List FetchedTx)) (c : Nat) (e : String)
    (h : fetchTx c = Except.error e) :
    getPendingTransactions chains fetchTx =
      getPendingTransactions chains (updateFetch fetchTx c (Except.ok [])) := by
  induction chains with
  | nil => rfl
  | cons d rest ih =>
    by_cases hd : d = c
    · subst hd
      simp [getPendingTransactions, h, updateFetch, ih]
    · simp only [getPendingTransactions, updateFetch, if_neg hd]
      cases hf : fetchTx d <;> simp [hf, ih]

theorem getPendingMessages_error_eq_empty (chains : List Nat)
    (fetchMsg : Nat → Except String (List FetchedMessage)) (c : Nat) (e : String)
    (h : fetchMsg c = Except.error e) :
    getPendingMessages chains fetchMsg =
      getPendingMessages chains (updateFetch fetchMsg c (Except.ok [])) := by
  induction chains with
  | nil => rfl
  | cons d rest ih =>
    by_cases hd : d = c
    · subst hd
      simp [getPendingMessages, h, updateFetch, ih]
    · simp only [getPendingMessages, updateFetch, if_neg hd]
      cases hf : fetchMsg d <;> simp [hf, ih]

/-- C7: a fetch that raises for one network is equivalent to that
network reporting zero pending items: the fetched transaction list,
the fetched message list and the whole processing order of the cycle
are unchanged when the raising fetch is replaced by an empty success,
so every other network is still fetched and processed and the cycle is
not aborted. -/
theorem c7_fetch_error_isolated (chains : List Nat)
    (fetchTx : Nat → Except String (List FetchedTx))
    (fetchMsg : Nat → Except String (List FetchedMessage))
    (c : Nat) (etx emsg : String)
    (h1 : fetchTx c = Except.error etx) (h2 : fetchMsg c = Except.error emsg) :
    getPendingTransactions chains fetchTx =
      getPendingTransactions chains (updateFetch fetchTx c (Except.ok [])) ∧
    getPendingMessages chains fetchMsg =
      getPendingMessages chains (updateFetch fetchMsg c (Except.ok [])) ∧
    scanOrder chains fetchTx fetchMsg =
      scanOrder chains (updateFetch fetchTx c (Except.ok []))
        (updateFetch fetchMsg c (Except.ok [])) := by
  have ha := getPendingTransactions_error_eq_empty chains fetchTx c etx h1
  have hb := getPendingMessages_error_eq_empty chains fetchMsg c emsg h2
  exact ⟨ha, hb, by simp only [scanOrder, ha, hb]⟩

def c7FetchTx : Nat → Except String (List FetchedTx) := fun c =>
  if c = 5 then Except.error "connection error"
  else Except.ok [{ safeTxHash := "0xt7", toAddr := "0x1", value := "0"
                    data := none, operation := 0, confirmations := none
                    confirmationsRequired := 1 }]

def c7FetchMsg : Nat → Except String (List FetchedMessage) := fun c =>
  if c = 5 then Except.error "connection error"
  else Except.ok [{ messageHash := "0xm7", confirmations := none }]

theorem c7_witness :
    getPendingTransactions [5, 7] c7FetchTx =
      getPendingTransactions [5, 7] (updateFetch c7FetchTx 5 (Except.ok [])) ∧
    getPendingMessages [5, 7] c7FetchMsg =
      getPendingMessages [5, 7] (updateFetch c7FetchMsg 5 (Except.ok [])) ∧
    scanOrder [5, 7] c7FetchTx c7FetchMsg =
      scanOrder [5, 7] (updateFetch c7FetchTx 5 (Except.ok []))
        (updateFetch c7FetchMsg 5 (Except.ok [])) :=
  c7_fetch_error_isolated [5, 7] c7FetchTx c7FetchMsg 5
    "connection error" "connection error" rfl rfl

/-! ### C8 -/

/-- C8: each selector-based rule is exactly the case-insensitive
prefix match of the call data against its selector list, and an action
with absent or empty call data triggers none of the three
selector-based rules. -/
theorem c8_selector_matching (tx : MetaTransactionData) :
    (SAFE_OWNERSHIP_TRANSFER.check tx = specSelectorFires ownershipSelectors tx.data ∧
     SAFE_THRESHOLD_CHANGE.check tx = specSelectorFires thresholdSelectors tx.data ∧
     SAFE_MODULE_MANAGEMENT.check tx = specSelectorFires moduleSelectors tx.data) ∧
    (tx.data = none ∨ tx.data = some "" →
      SAFE_OWNERSHIP_TRANSFER.check tx = false ∧
      SAFE_THRESHOLD_CHANGE.check tx = false ∧
      SAFE_MODULE_MANAGEMENT.check tx = false) := by
  have e1 := selectorCheck_eq_spec ownershipSelectors tx
  have e2 := selectorCheck_eq_spec thresholdSelectors tx
  have e3 := selectorCheck_eq_spec moduleSelectors tx
  refine ⟨⟨e1, e2, e3⟩, ?_⟩
  rintro (h | h) <;>
    exact ⟨by rw [show SAFE_OWNERSHIP_TRANSFER.check tx =
              selectorCheck ownershipSelectors tx from rfl, e1, h]; decide,
           by rw [show SAFE_THRESHOLD_CHANGE.check tx =
              selectorCheck thresholdSelectors tx from rfl, e2, h]; decide,
           by rw [show SAFE_MODULE_MANAGEMENT.check tx =
              selectorCheck moduleSelectors tx from rfl, e3, h]; decide⟩

def c8NoDataTx : MetaTransactionData :=
  { toAddr := "0x0000000000000000000000000000000000000009"
    value := "1", data := none, operation := 0 }

theorem c8_witness :
    SAFE_OWNERSHIP_TRANSFER.check c8NoDataTx = false ∧
    SAFE_THRESHOLD_CHANGE.check c8NoDataTx = false ∧
    SAFE_MODULE_MANAGEMENT.check c8NoDataTx = false :=
  (c8_selector_matching c8NoDataTx).2 (Or.inl rfl)

/-! ### C9 -/

/-- C9: a delegate call with a non-empty allowlist and an empty target
address is not caught by the delegate-call-restriction rule, and the
evaluation reasons never cite that rule for such an action — the
missing-target case is fail-open. -/
theorem c9_missing_target_fail_open (env : Option String) (tx : MetaTransactionData)
    (hop : tx.operation = 1) (hne : parseTrustedContracts env ≠ [])
    (hto : tx.toAddr = "") :
    delegateCallCheck env tx = false ∧
    formatReason (DELEGATE_CALL_RESTRICTION env) ∉
      (isDenied (DENY_LIST_RULES env) tx).reasons := by
  have hcheck : delegateCallCheck env tx = false := by
    unfold delegateCallCheck
    simp [hop, hto, List.length_eq_zero, hne]
  refine ⟨hcheck, fun hmem => ?_⟩
  rw [mem_reasons_iff] at hmem
  obtain ⟨r, hr, hc, hf⟩ := hmem
  have hdel : formatReason (DELEGATE_CALL_RESTRICTION env) =
      "DELEGATE_CALL_RESTRICTION: Prevent delegate calls to untrusted contracts" := rfl
  rw [hdel] at hf
  simp only [DENY_LIST_RULES, List.mem_cons, List.not_mem_nil, or_false] at hr
  rcases hr with rfl | rfl | rfl | rfl
  · exact absurd hf (by decide)
  · exact absurd hf (by decide)
  · exact absurd hf (by decide)
  · rw [show (DELEGATE_CALL_RESTRICTION env).check tx = delegateCallCheck env tx
      from rfl, hcheck] at hc
    exact Bool.false_ne_true hc

def c9Tx : MetaTransactionData :=
  { toAddr := "", value := "0", data := none, operation := 1 }

theorem c9_witness :
    delegateCallCheck (some "0xdead") c9Tx = false ∧
    formatReason (DELEGATE_CALL_RESTRICTION (some "0xdead")) ∉
      (isDenied (DENY_LIST_RULES (some "0xdead")) c9Tx).reasons :=
  c9_missing_target_fail_open (some "0xdead") c9Tx rfl (by decide) rfl

/-! ### C10 -/

/-- C10: every message that survives the pending-message scan still
needs confirmations under the hard-coded assumed requirement of 2:
both its fetched confirmation count and the recorded count are below
2, so a message with 2 or more fetched confirmations never appears in
the scan results, whatever the actual vault threshold. -/
theorem c10_two_confirmations_excluded (chains : List Nat)
    (fetch : Nat → Except String (List FetchedMessage))
    (p : PendingMessage) (hp : p ∈ getPendingMessages chains fetch) :
    (p.msg.confirmations.getD []).length < 2 ∧ p.confirmations < 2 := by
  induction chains with
  | nil => simp [getPendingMessages] at hp
  | cons c rest ih =>
    rw [getPendingMessages] at hp
    cases hf : fetch c with
    | error e => rw [hf] at hp; exact ih hp
    | ok msgs =>
      rw [hf] at hp
      rcases List.mem_append.mp hp with hin | hin
      · obtain ⟨m, hm, rfl⟩ := List.mem_map.mp hin
        have hneed := (List.mem_filter.mp hm).2
        simp only [messageNeedsConfirmations, decide_eq_true_eq] at hneed
        have hlt : (m.confirmations.getD []).length < 2 := by omega
        exact ⟨hlt, hlt⟩
      · exact ih hin

def c10Fetch : Nat → Except String (List FetchedMessage) := fun _ =>
  Except.ok [⟨"0xm0", none⟩, ⟨"0xm2", some [⟨"0xa"⟩, ⟨"0xb"⟩]⟩]

theorem c10_witness :
    ((mkPendingMessage 1 ⟨"0xm0", none⟩).msg.confirmations.getD []).length < 2 ∧
    (mkPendingMessage 1 ⟨"0xm0", none⟩).confirmations < 2 :=
  c10_two_confirmations_excluded [1] c10Fetch
    (mkPendingMessage 1 ⟨"0xm0", none⟩) (by decide)

end SafeRemote
